import Mathlib

/-!
Verification of the agent orchestration core of the `agentic-pilot` voice
assistant.  The Python source is shallowly embedded: each relevant function
is translated into an executable Lean definition, with the external
collaborators (the remote reasoning model, the tool bodies, the microphone,
the speech synthesizer) supplied as oracle parameters.  All definitions are
computable so that every statement can be checked on concrete inputs.
-/

/-! ## JSON-like values and result maps

Python tool results are dictionaries with string keys; we model them as
association lists of `JVal` values (insertion order preserved, first
binding wins on lookup, like `dict.get`). -/

inductive JVal where
  | str (s : String)
  | bool (b : Bool)
  | num (n : Nat)
  | null
deriving DecidableEq, Repr

abbrev RMap : Type := List (String × JVal)

/-- Python `dict.get(k)`: first binding for `k`, `None` when absent. -/
def rget (m : RMap) (k : String) : Option JVal :=
  match m with
  | [] => none
  | (k', v) :: rest => if k' = k then some v else rget rest k

/-- Python truthiness of a JSON-like value (`None`, `False`, `0`, `""` are falsy). -/
def jTruthy : Option JVal → Bool
  | none => false
  | some (JVal.str s) => !(s == "")
  | some (JVal.bool b) => b
  | some (JVal.num n) => !(n == 0)
  | some JVal.null => false

/-! ## Tool body outcomes

A tool body (an external collaborator executed by name) either returns a
result dictionary or raises an exception carrying a message. -/

inductive ToolOutcome where
  | ok (result : RMap)
  | raises (msg : String)
deriving DecidableEq, Repr

/-! ## `src/mcp/tool_execution.py` — `ToolExecutor.execute`

The dispatch is a long `if/elif` over the tool names below; each branch
invokes one external tool body.  The whole dispatch sits inside a
`try/except Exception` that converts any raised exception into an error
dictionary.  We model the branch bodies by an oracle `body : name → args →
ToolOutcome` (the tools are black boxes per the spec) and model a possibly
propagating Python exception by `Except String`. -/

def knownTools : List String :=
  ["create_folder", "create_file", "edit_file", "read_file", "list_files",
   "get_current_time", "play_music", "smart_open", "launch", "open_application",
   "open_website", "search_google", "take_screenshot", "capture_screen_region",
   "analyze_screen", "solve_problem_on_screen", "solve_leetcode", "read_form",
   "extract_text_from_screen", "answer_screen_question", "click_on_screen",
   "type_text", "fill_form_on_screen", "move_mouse", "move_text_cursor",
   "insert_code", "generate_code", "replace_selection", "get_selected_code",
   "format_code", "save_file", "comment_code", "browser_open_tab",
   "browser_close_tab", "browser_navigate", "browser_google_search",
   "browser_fill_form", "browser_click_element", "browser_get_page_content",
   "browser_screenshot"]

/-- Exception with message and type name, as raised by a tool body. -/
structure PyExn where
  msg : String
  etype : String
deriving DecidableEq, Repr

/-- Body oracle: what each dispatched tool body does on the given arguments. -/
def ToolBody : Type := String → RMap → Except PyExn RMap

/-- `ToolExecutor.execute(tool_name, args)`: dispatch by name inside
`try/except Exception`; unknown names yield the error dictionary of the
final `else` branch.  The `Except String` result models an exception
escaping to the caller, which never happens. -/
def ToolExecutor.execute (body : ToolBody) (tool_name : String) (args : RMap) :
    Except String RMap :=
  if tool_name ∈ knownTools then
    match body tool_name args with
    | .ok r => .ok r
    | .error e =>
        .ok [("success", JVal.bool false), ("tool", JVal.str tool_name),
             ("error", JVal.str e.msg), ("error_type", JVal.str e.etype)]
  else
    .ok [("success", JVal.bool false),
         ("error", JVal.str ("Unknown tool: " ++ tool_name))]

/-- Module-level `execute_tool`: guards on the global executor being
initialized before delegating to `ToolExecutor.execute`. -/
def execute_tool (initialized : Bool) (body : ToolBody) (tool_name : String)
    (args : RMap) : Except String RMap :=
  if !initialized then
    .ok [("success", JVal.bool false), ("error", JVal.str "Executor not initialized")]
  else
    ToolExecutor.execute body tool_name args

/-! ## `src/agent/gemini.py` — `GeminiCore._handle_tool_calls`

For each function call requested by the model, the handler invokes
`execute_tool` exactly once (there is no loop around the call site); an
exception is converted to `{"success": False, "error": str(e)}`.  The
per-attempt oracle `tools : Nat → ToolOutcome` is indexed by a global
invocation counter so that the number of attempts made is the number of
indices consumed. -/

def ToolStream : Type := Nat → ToolOutcome

/-- Body of the `for fc in function_calls` loop: one `execute_tool`
invocation per requested call, wrapped in `try/except`.  Returns the list
of `{"name", "response"}` records together with the next unconsumed oracle
index (so `tn' - tn` is the total number of `execute_tool` invocations). -/
def handleToolCalls (tools : ToolStream) (tn : Nat) :
    List String → List (String × RMap) × Nat
  | [] => ([], tn)
  | name :: rest =>
      let response : RMap :=
        match tools tn with
        | .ok r => r
        | .raises m => [("success", JVal.bool false), ("error", JVal.str m)]
      let tail := handleToolCalls tools (tn + 1) rest
      ((name, response) :: tail.1, tail.2)

/-! ## `src/config/config.py` constants -/

def TOOL_RETRY_ATTEMPTS : Nat := 2
def MAX_CONVERSATION_TURNS : Nat := 20
def MAX_TOOL_ITERATIONS : Nat := 5

/-! ## `src/test/test_retry_logic.py` — the retry loop of `test_retry_exhaustion`

The repository's retry test suite implements, inline, the per-tool retry
loop it verifies: up to `1 + TOOL_RETRY_ATTEMPTS` attempts, a result that
carries `status == "error"` or `success == False` (or an exception) counts
as failed, and after exhaustion a structured failure with an `attempts`
count and a `suggestion` field is synthesized. -/

/-- Loop state after trying attempts `0..attempt-1`:
`result` is Python's `result` variable, `lastError` is `last_error`. -/
def testRetryFailed (result : Option RMap) : Bool :=
  match result with
  | none => true
  | some r => (rget r "status" == some (JVal.str "error")) ||
              (rget r "success" == some (JVal.bool false))

/-- Python `result.get("message") or result.get("error")` with `None`
propagation and string truthiness. -/
def messageOrError (r : RMap) : Option String :=
  match rget r "message" with
  | some (JVal.str s) => if s = "" then
      (match rget r "error" with | some (JVal.str t) => some t | _ => none)
    else some s
  | _ => match rget r "error" with | some (JVal.str t) => some t | _ => none

/-- The attempt loop `for attempt in range(1 + Config.TOOL_RETRY_ATTEMPTS)`.
Returns Python's `result` and `last_error` together with the number of
attempts actually made. -/
def testRetryAttempts (tools : ToolStream) :
    Nat → Nat → Option RMap → Option String → (Option RMap × Option String × Nat)
  | 0, made, result, lastError => (result, lastError, made)
  | n + 1, made, _, lastError =>
      match tools made with
      | .raises m => testRetryAttempts tools n (made + 1) none (some m)
      | .ok r =>
          if (rget r "status" == some (JVal.str "error")) ||
             (rget r "success" == some (JVal.bool false)) then
            testRetryAttempts tools n (made + 1) (some r) (messageOrError r)
          else
            (some r, lastError, made + 1)

/-- The full retry logic of `test_retry_exhaustion`: run the attempt loop,
then, if the final result is missing or failed, synthesize the structured
failure dictionary with `attempts` and `suggestion`. -/
def testRetryLoop (tools : ToolStream) (tool_name : String) : RMap × Nat :=
  let out := testRetryAttempts tools (1 + TOOL_RETRY_ATTEMPTS) 0 none none
  if testRetryFailed out.1 then
    let errorMsg := (out.2.1).getD "Tool execution failed after all retries"
    ([("status", JVal.str "error"), ("success", JVal.bool false),
      ("error", JVal.str errorMsg), ("tool_name", JVal.str tool_name),
      ("attempts", JVal.num (1 + TOOL_RETRY_ATTEMPTS)),
      ("suggestion", JVal.str ("Tool '" ++ tool_name ++ "' failed after " ++
        toString (1 + TOOL_RETRY_ATTEMPTS) ++ " attempts. Error: " ++ errorMsg ++
        ". Please try an alternative approach or different tool."))], out.2.2)
  else
    ((out.1).getD [], out.2.2)

/-- The always-failing tool of `MockToolExecutor` in `failure_mode = "always_fail"`. -/
def alwaysFailResult : RMap :=
  [("status", JVal.str "error"), ("success", JVal.bool false),
   ("message", JVal.str "Simulated failure for testing")]

def alwaysFailStream : ToolStream := fun _ => ToolOutcome.ok alwaysFailResult

/-! ## String utilities mirroring the Python string operations -/

/-- Python `needle in hay` (substring containment) on character lists. -/
def hasSub (n : List Char) : List Char → Bool
  | [] => n.isPrefixOf ([] : List Char)
  | c :: t => n.isPrefixOf (c :: t) || hasSub n t

/-- Index of the leftmost occurrence of `n` in the list, as `re.search` /
`str.find` would report it. -/
def firstIdx (n : List Char) : List Char → Option Nat
  | [] => if n.isPrefixOf ([] : List Char) then some 0 else none
  | c :: t =>
      if n.isPrefixOf (c :: t) then some 0
      else (firstIdx n t).map (· + 1)

/-- Python `needle in hay` on strings. -/
def strContains (hay needle : String) : Bool :=
  hasSub needle.toList hay.toList

/-- Python `str.strip()`: remove whitespace from both ends (on characters,
so that it reduces in the kernel). -/
def pyStrip (cs : List Char) : List Char :=
  ((cs.dropWhile Char.isWhitespace).reverse.dropWhile Char.isWhitespace).reverse

/-- Python `str.strip()` on strings. -/
def pyStripS (s : String) : String :=
  String.mk (pyStrip s.toList)

/-- Python `str.lower()`. -/
def pyLower (s : String) : String :=
  String.mk (s.toList.map Char.toLower)

/-- Python `str.endswith(suffix)`. -/
def pyEndsWith (s suffix : String) : Bool :=
  suffix.toList.isSuffixOf s.toList

/-- Split at the leftmost occurrence of `n`: the part before it and the
part after it, or `none` when `n` does not occur. -/
def splitAtSub (n : List Char) : List Char → Option (List Char × List Char)
  | [] => if n.isPrefixOf ([] : List Char) then some ([], []) else none
  | c :: t =>
      if n.isPrefixOf (c :: t) then some ([], (c :: t).drop n.length)
      else match splitAtSub n t with
        | none => none
        | some (p, r) => some (c :: p, r)

/-- The backquote character, written numerically. -/
def btickChar : Char := Char.ofNat 96

/-- Three consecutive backquotes: a fenced-code-block delimiter. -/
def fenceMark : List Char := [btickChar, btickChar, btickChar]

/-- One step of `re.sub(r"```.*?```", "", text, flags=re.DOTALL)`: the
leftmost non-greedy match is the text from the first fence mark to the
next fence mark after it; matching resumes after the removed block.  When
no complete match exists nothing is removed. -/
def removeFencesAux : Nat → List Char → List Char
  | 0, cs => cs
  | f + 1, cs =>
      match splitAtSub fenceMark cs with
      | none => cs
      | some (pre, rest) =>
          match splitAtSub fenceMark rest with
          | none => cs
          | some (_, rest2) => pre ++ removeFencesAux f rest2

/-- Sanitization of the final response text in `_process_interaction`:
strip fenced code blocks, then `.strip()`. -/
def sanitizeText (s : String) : String :=
  pyStripS (String.mk (removeFencesAux s.length s.toList))

/-- The decline keywords checked on the lowered, stripped answer. -/
def declineKeywords : List String :=
  ["no", "nope", "nothing", "that\x27s all", "thats all", "i\x27m good",
   "im good", "all good", "no thanks", "no thank you"]

/-- Python `any(keyword in answer_lower for keyword in decline_keywords)`. -/
def isDecline (answer_lower : String) : Bool :=
  declineKeywords.any (fun k => strContains answer_lower k)

/-! ## `src/agent/gemini.py` — data carried through a turn

`types.Part` / `types.Content` and the response of `generate_content` are
modeled structurally; a candidate is identified with its `content`. -/

inductive GPart where
  | txt (s : String)
  | img
  | fcall (name : String)
  | fresp (name : String) (response : RMap)
deriving DecidableEq, Repr

structure GContent where
  role : String
  parts : List GPart
deriving DecidableEq, Repr, Inhabited

structure GenResponse where
  candidates : List GContent
  text : String
deriving DecidableEq, Repr, Inhabited

/-- Outcome of one `generate_content` attempt: a response, a transient
`503`/overloaded error, or any other exception. -/
inductive ApiOutcome where
  | ok (r : GenResponse)
  | errTransient
  | errFatal
deriving Inhabited

/-- The external collaborators consulted during one `_process_interaction`
invocation, each as a stream indexed by an invocation counter. -/
structure Env where
  screenshotOk : Bool
  api : Nat → ApiOutcome
  tools : ToolStream
  speakFails : Nat → Bool
  recordText : String

/-- The `for attempt in range(max_retries)` wrapper around
`generate_content` (`max_retries = 3`): transient errors are retried up to
twice, the third transient failure and any non-transient error propagate.
Returns the response together with the next unconsumed attempt index. -/
def callWithRetry3 (api : Nat → ApiOutcome) (n : Nat) :
    Except Unit (GenResponse × Nat) :=
  match api n with
  | .ok r => .ok (r, n + 1)
  | .errFatal => .error ()
  | .errTransient =>
      match api (n + 1) with
      | .ok r => .ok (r, n + 2)
      | .errFatal => .error ()
      | .errTransient =>
          match api (n + 2) with
          | .ok r => .ok (r, n + 3)
          | .errTransient => .error ()
          | .errFatal => .error ()

/-- The function calls requested by a response: the `function_call` parts
of the first candidate's content (empty when there are no candidates). -/
def extractCalls (r : GenResponse) : List String :=
  match r.candidates with
  | [] => []
  | c :: _ =>
      c.parts.filterMap (fun p =>
        match p with
        | GPart.fcall name => some name
        | _ => none)

/-- State threaded through the tool-calling loop: the outgoing `contents`
list, the current response, the two oracle counters, and the number of
tool round trips (executions of `_handle_tool_calls`) performed. -/
structure LoopSt where
  contents : List GContent
  resp : GenResponse
  apiN : Nat
  toolN : Nat
  trips : Nat

/-- The `for _ in range(max_iterations)` tool loop of
`_process_interaction` (`max_iterations = 5`): while the response requests
function calls, execute them, append the model turn and a synthetic
function-response turn, and call the model again.  An exception from the
retried model call aborts the turn (`Except` error, carrying the number of
round trips already performed). -/
def toolLoop (env : Env) : Nat → List GContent → GenResponse → Nat → Nat → Nat →
    Except Nat LoopSt
  | 0, cs, r, an, tn, rt => .ok ⟨cs, r, an, tn, rt⟩
  | f + 1, cs, r, an, tn, rt =>
      let fcs := extractCalls r
      if fcs.isEmpty then .ok ⟨cs, r, an, tn, rt⟩
      else
        match r.candidates with
        | [] => .ok ⟨cs, r, an, tn, rt⟩
        | mc :: _ =>
            let hres := handleToolCalls env.tools tn fcs
            let frParts := hres.1.map (fun nr => GPart.fresp nr.1 nr.2)
            let cs' := cs ++ [mc, { role := "user", parts := frParts }]
            match callWithRetry3 env.api an with
            | .error _ => .error (rt + 1)
            | .ok (r', an') => toolLoop env f cs' r' an' hres.2 (rt + 1)

/-- FIFO truncation of the conversation window:
`if len(contents) > 20: contents = contents[-20:]`. -/
def truncateTurns (c : List GContent) : List GContent :=
  if c.length > 20 then c.drop (c.length - 20) else c

/-- Observable outcome of one `_process_interaction` invocation.
`relisten` records that the continuation branch fired `on_listening` after
speaking; `next` is the pending recursive `_process_interaction(answer,
use_history=True)` call; `clearedHistory` records an assignment
`self.conversation_history = []` on the taken path. -/
structure TurnOut where
  history : List GContent
  relisten : Bool
  wentIdle : Bool
  clearedHistory : Bool
  spokenText : Option String
  speechOk : Bool
  toolRoundTrips : Nat
  next : Option String
  crashed : Bool
deriving DecidableEq, Repr

/-- Continuation of `_process_interaction` after the tool loop: text
sanitization, the history append/truncate update, speaking, and the
post-turn continuation policy. -/
def afterLoop (env : Env) (useHistory : Bool) (hist : List GContent)
    (st : LoopSt) : TurnOut :=
  let respText := sanitizeText st.resp.text
  let updated := useHistory && !st.resp.candidates.isEmpty
  let contents3 :=
    if updated then truncateTurns (st.contents ++ [st.resp.candidates.headD default])
    else st.contents
  let hist1 := if updated then contents3 else hist
  if respText ≠ "" ∧ respText.length > 5 then
    let sOk := !(env.speakFails 0)
    if sOk && pyEndsWith respText "?" then
      let answer := env.recordText
      if answer ≠ "" then
        let aLower := pyStripS (pyLower answer)
        if isDecline aLower ∧ aLower.length < 15 then
          { history := [], relisten := true, wentIdle := true,
            clearedHistory := true, spokenText := some respText,
            speechOk := true, toolRoundTrips := st.trips, next := none,
            crashed := false }
        else
          let hist2 := if hist1.isEmpty then contents3 else hist1
          { history := hist2, relisten := true, wentIdle := false,
            clearedHistory := false, spokenText := some respText,
            speechOk := true, toolRoundTrips := st.trips,
            next := some answer, crashed := false }
      else
        { history := [], relisten := true, wentIdle := true,
          clearedHistory := true, spokenText := some respText,
          speechOk := true, toolRoundTrips := st.trips, next := none,
          crashed := false }
    else
      { history := hist1, relisten := false, wentIdle := !useHistory,
        clearedHistory := false, spokenText := some respText,
        speechOk := sOk, toolRoundTrips := st.trips, next := none,
        crashed := false }
  else
    { history := hist1, relisten := false, wentIdle := !useHistory,
      clearedHistory := false, spokenText := none, speechOk := false,
      toolRoundTrips := st.trips, next := none, crashed := false }

/-- The outgoing message list before the first model call: prior history
when `use_history` is set and the history is non-empty, followed by the
new user turn carrying the text and the screenshot when one was
captured. -/
def buildContents (userText : String) (screenshotOk : Bool) (useHistory : Bool)
    (hist : List GContent) : List GContent :=
  (if useHistory && !hist.isEmpty then hist else []) ++
    [{ role := "user",
       parts := [GPart.txt userText] ++ (if screenshotOk then [GPart.img] else []) }]

/-- Shallow embedding of `GeminiCore._process_interaction`.  The oracle
`env` supplies the screenshot, the model, the tools, the synthesizer and
the follow-up recording; `hist` is `self.conversation_history` on entry
and the returned `history` its value on exit. -/
def processInteraction (env : Env) (userText : String) (useHistory : Bool)
    (hist : List GContent) : TurnOut :=
  let contents1 := buildContents userText env.screenshotOk useHistory hist
  match callWithRetry3 env.api 0 with
  | .error _ =>
      { history := hist, relisten := false, wentIdle := !useHistory,
        clearedHistory := false, spokenText := none, speechOk := false,
        toolRoundTrips := 0, next := none, crashed := true }
  | .ok (r0, an0) =>
    match toolLoop env 5 contents1 r0 an0 0 0 with
    | .error rt =>
        { history := hist, relisten := false, wentIdle := !useHistory,
          clearedHistory := false, spokenText := none, speechOk := false,
          toolRoundTrips := rt, next := none, crashed := true }
    | .ok st => afterLoop env useHistory hist st

/-- Tail of a session-controller run starting from history `h`. -/
def runTurnsFrom (h : List GContent) : List (Env × String × Bool) → List GContent
  | [] => h
  | (env, t, uh) :: rest => runTurnsFrom (processInteraction env t uh h).history rest

/-- A completed run of the session controller: any sequence of calls to
the interaction handler (wake-word turns, continuous-mode turns and the
handler's own recursive follow-up calls all invoke the same body), each
with its own collaborators, starting from the empty history. -/
def runTurns (calls : List (Env × String × Bool)) : List GContent :=
  runTurnsFrom [] calls

/-! ## `src/agent/gemini.py` — `_record_and_transcribe_command`

The recording loop uses its local constants `RATE = 16000`, `CHUNK = 1024`,
`SILENCE_THRESHOLD = 300`, `SILENCE_DURATION = 2.0`, `MAX_DURATION = 10`,
`MIN_AUDIO_LENGTH = 0.5`.  Per chunk `i` the energy is
`sum(abs(x) for x in pcm) / CHUNK`; comparing that float against the
threshold is exact (division by the power of two 1024 is lossless), so a
chunk is silent iff the integer `sum(abs(x))` is below `300 * 1024`.  The
energy trace is the stream of those integer sums. -/

def REC_RATE : Nat := 16000
def REC_CHUNK : Nat := 1024
def REC_SILENCE_SUM : Nat := 300 * 1024

/-- `max_silent_chunks = int(SILENCE_DURATION * RATE / CHUNK)` with
`SILENCE_DURATION = 2.0`, giving 31. -/
def maxSilentChunks : Nat := 2 * REC_RATE / REC_CHUNK

/-- `max_chunks = int(MAX_DURATION * RATE / CHUNK)` with `MAX_DURATION = 10`,
giving 156. -/
def maxChunks : Nat := 10 * REC_RATE / REC_CHUNK

/-- `min_chunks = int(MIN_AUDIO_LENGTH * RATE / CHUNK)` with
`MIN_AUDIO_LENGTH = 0.5`, giving 7. -/
def minChunks : Nat := REC_RATE / 2 / REC_CHUNK

/-- The `for i in range(max_chunks)` recording loop.  `fuel` is the number
of loop iterations left, `i` the number of chunks already recorded, `sc`
the `silent_chunks` counter.  Returns the number of chunks in the emitted
utterance buffer. -/
def recordLoopAux (trace : Nat → Nat) : Nat → Nat → Nat → Nat
  | 0, i, _ => i
  | fuel + 1, i, sc =>
      if minChunks ≤ i then
        if trace i < REC_SILENCE_SUM then
          if sc + 1 > maxSilentChunks then i + 1
          else recordLoopAux trace fuel (i + 1) (sc + 1)
        else recordLoopAux trace fuel (i + 1) 0
      else recordLoopAux trace fuel (i + 1) sc

/-- Number of audio chunks in the utterance buffer emitted for the given
energy trace. -/
def recordedChunks (trace : Nat → Nat) : Nat :=
  recordLoopAux trace maxChunks 0 0

/-- Duration in seconds of the emitted utterance buffer. -/
def recordedSeconds (trace : Nat → Nat) : ℚ :=
  (recordedChunks trace * REC_CHUNK : ℚ) / REC_RATE

/-! ## `src/speech/tts.py` — `ElevenLabsTTS.speak`

The body is linear: an early return on empty/whitespace text, then a
`try` block (start callback with its own guard, synthesis, playback),
an `except Exception` swallowing any error, and a `finally` block that
invokes the end callback (its own exceptions also swallowed).  We record
the externally visible steps in order. -/

inductive SpeakEv where
  | startCb
  | synthCall
  | playCall
  | endCb
deriving DecidableEq, Repr

/-- The sequence of steps performed by one `speak(text, on_start, on_end)`
call, given whether the synthesis and the playback raise.  Callbacks are
supplied (`on_start`/`on_end` non-null); exceptions raised by the
callbacks themselves are caught where they fire and do not change the
sequence of invocations. -/
def speakEvents (text : String) (synthRaises playRaises : Bool) : List SpeakEv :=
  if text = "" ∨ pyStripS text = "" then []
  else
    [SpeakEv.startCb, SpeakEv.synthCall] ++
      (if synthRaises then [] else
        [SpeakEv.playCall] ++ (if playRaises then [] else [])) ++
      [SpeakEv.endCb]

/-- How many times `on_end` fires during one `speak` call. -/
def onEndCount (text : String) (synthRaises playRaises : Bool) : Nat :=
  (speakEvents text synthRaises playRaises).count SpeakEv.endCb

/-! ## `src/speech/wake_word.py` — wake-phrase matching and command extraction

For a transcript, `start_detection` lowers and strips it, looks for the
first of the candidates `[word, "hey word", "ok word"]` occurring as a
substring (the bare word is checked first, and whenever a prefixed
candidate occurs the bare word occurs too, so the detected candidate never
contains a space), then uses `re.search` with the detected candidate as
the pattern to find its leftmost occurrence, takes the text after it,
strips whitespace and leading punctuation, and delivers the result to the
callback as a pre-supplied command when it is longer than 3 characters. -/

def wakeCandidates (w : String) : List String :=
  [w, "hey " ++ w, "ok " ++ w]

/-- First candidate found as a substring of the lowered transcript. -/
def detectWake (w tl : String) : Option String :=
  (wakeCandidates w).find? (fun ww => strContains tl ww)

/-- Characters stripped by `lstrip('.,!?:; ')`. -/
def leadPunct : List Char := ['.', ',', '!', '?', ':', ';', ' ']

def stripLeadChars (bad : List Char) : List Char → List Char
  | [] => []
  | c :: t => if c ∈ bad then stripLeadChars bad t else c :: t

/-- Result of processing one transcript: whether a wake phrase matched and
the command delivered to the callback, when any. -/
structure WakeOutcome where
  matched : Bool
  command : Option String
deriving DecidableEq, Repr

/-- Shallow embedding of the wake-word branch of `start_detection` for one
transcript `t`.  The wake pattern is the detected candidate itself (the
detected candidate is the bare configured word, which contains no space
and no regex metacharacter), so the `re.search` is a leftmost literal
substring search on the lowered transcript; the command is sliced from the
original transcript at the match end. -/
def wakeDetect (w t : String) : WakeOutcome :=
  let tl := pyStripS (pyLower t)
  match detectWake w tl with
  | none => { matched := false, command := none }
  | some dw =>
      let command_text :=
        match firstIdx dw.toList tl.toList with
        | none => ""
        | some i =>
            String.mk (stripLeadChars leadPunct
              (pyStrip (t.toList.drop (i + dw.length))))
      if command_text ≠ "" ∧ command_text.length > 3 then
        { matched := true, command := some command_text }
      else
        { matched := true, command := none }

/-- The wake words `Config.set_wake_word` accepts. -/
def allowedWakeWords : List String := ["jarvis", "sarah"]

/-! ## `src/tools/autopilot.py` — `execute_autopilot`

Each iteration captures the screen, asks the model for a JSON object
`{steps, done}`, and either finishes (`done` truthy), skips (malformed
JSON or empty steps), or executes the steps.  A step with a `tool` field
dispatches through the tool executor — except that the name
`execute_autopilot` is skipped — and a step with a `function` field
dispatches to the PyAutoGUI interpreter; every per-step exception is
caught and the loop continues. -/

inductive AutoStep where
  | toolCall (name : String) (params : RMap)
  | autoCmd (fn : String) (params : RMap)
  | invalid
deriving DecidableEq, Repr

/-- What one iteration's perception + model call produces:
`captureFail` — `capture_screen` returned a falsy result;
`badJson` — `json.loads` raised `JSONDecodeError` (iteration skipped);
`nonDict` — the JSON parsed to a non-dict, so `instructions.get` raises
`AttributeError` into the outer `except` (message `em`);
`parsed done steps` — a dict with its `done` field (`none` = null /
absent) and its `steps` list. -/
inductive IterOutcome where
  | captureFail
  | badJson
  | nonDict (em : String)
  | parsed (done : Option String) (steps : List AutoStep)
deriving DecidableEq, Repr

/-- Python truthiness of `instructions.get('done')` when the field is null
or a string. -/
def doneTruthy : Option String → Bool
  | none => false
  | some s => !(s == "")

/-- What executing one step does, as an observable effect. -/
inductive AutoEffect where
  | toolExec (name : String)
  | cmdExec (fn : String)
  | skippedRecursive
  | skippedNoExecutor
  | invalidStep
deriving DecidableEq, Repr

/-- Effect of one step of the `for step in steps` loop (`hasExec`: a tool
executor was provided).  The recursive-call guard fires before the
executor is consulted; `continue` moves to the next step in every case. -/
def stepEffect (hasExec : Bool) : AutoStep → AutoEffect
  | AutoStep.toolCall name _ =>
      if name = "execute_autopilot" then AutoEffect.skippedRecursive
      else if !hasExec then AutoEffect.skippedNoExecutor
      else AutoEffect.toolExec name
  | AutoStep.autoCmd fn _ => AutoEffect.cmdExec fn
  | AutoStep.invalid => AutoEffect.invalidStep

/-- Effects of one iteration's step list, in order. -/
def stepEffects (hasExec : Bool) (steps : List AutoStep) : List AutoEffect :=
  steps.map (stepEffect hasExec)

/-- Result dictionary of `execute_autopilot`, as its fields. -/
structure AutoResult where
  status : String
  message : String
  steps_taken : Option Nat
deriving DecidableEq, Repr

/-- The `for step_num in range(max_iterations)` loop.  `fuel` is the
number of iterations left, `n` the current `step_num`, `acc` the effects
performed so far. -/
def autopilotAux (env : Nat → IterOutcome) (hasExec : Bool) (maxIter : Nat) :
    Nat → Nat → List AutoEffect → AutoResult × List AutoEffect
  | 0, _, acc =>
      ({ status := "partial",
         message := "Autopilot reached maximum iterations (" ++ toString maxIter ++
                    "). Task may be incomplete.",
         steps_taken := some maxIter }, acc)
  | fuel + 1, n, acc =>
      match env n with
      | IterOutcome.captureFail =>
          ({ status := "error", message := "Failed to capture screenshot",
             steps_taken := none }, acc)
      | IterOutcome.badJson => autopilotAux env hasExec maxIter fuel (n + 1) acc
      | IterOutcome.nonDict em =>
          ({ status := "error", message := "Autopilot error: " ++ em,
             steps_taken := none }, acc)
      | IterOutcome.parsed done steps =>
          if doneTruthy done then
            ({ status := "success", message := done.getD "",
               steps_taken := some (n + 1) }, acc)
          else if steps.isEmpty then autopilotAux env hasExec maxIter fuel (n + 1) acc
          else autopilotAux env hasExec maxIter fuel (n + 1)
                 (acc ++ stepEffects hasExec steps)

/-- Shallow embedding of `execute_autopilot` for a given perception/model
trace: the result dictionary plus the ordered effects performed. -/
def executeAutopilot (env : Nat → IterOutcome) (maxIter : Nat) (hasExec : Bool) :
    AutoResult × List AutoEffect :=
  autopilotAux env hasExec maxIter maxIter 0 []

/-! ## Concrete collaborators used for witnesses and counterexamples -/

/-- A tool body that raises on every invocation. -/
def raisingBody : ToolBody := fun _ _ => Except.error ⟨"boom", "ValueError"⟩

/-- A model response that always requests one function call. -/
def alwaysCallResp : GenResponse :=
  { candidates := [{ role := "model", parts := [GPart.fcall "take_screenshot"] }],
    text := "" }

/-- Collaborators for which the model requests a tool on every round trip. -/
def alwaysCallEnv : Env :=
  { screenshotOk := true, api := fun _ => ApiOutcome.ok alwaysCallResp,
    tools := fun _ => ToolOutcome.ok [], speakFails := fun _ => false,
    recordText := "" }

/-- A model response with a plain declarative sentence and no tool calls. -/
def declarativeResp : GenResponse :=
  { candidates := [{ role := "model", parts := [GPart.txt "All done now."] }],
    text := "All done now." }

/-- Collaborators for a turn whose spoken response does not end in a
question mark and whose speech succeeds. -/
def declarativeEnv : Env :=
  { screenshotOk := false, api := fun _ => ApiOutcome.ok declarativeResp,
    tools := fun _ => ToolOutcome.ok [], speakFails := fun _ => false,
    recordText := "" }

/-- A non-empty conversation history held before the turn. -/
def someHistory : List GContent := [{ role := "user", parts := [GPart.txt "hi"] }]

/-- An autopilot trace whose first response carries `done = ""`:
a non-null `done` field that is nevertheless falsy. -/
def doneEmptyEnv : Nat → IterOutcome := fun _ => IterOutcome.parsed (some "") []

/-- An autopilot trace whose every response carries a truthy `done`. -/
def doneOkEnv : Nat → IterOutcome := fun _ => IterOutcome.parsed (some "done!") []

/-- An iteration outcome on which the loop neither errors out nor crashes:
the screen capture succeeded and the model output was a JSON object or a
JSON-decode failure. -/
def benignIter : IterOutcome → Bool
  | IterOutcome.captureFail => false
  | IterOutcome.nonDict _ => false
  | _ => true

/-- Whether iteration `i` of the trace carries a truthy `done` field. -/
def truthyDoneAt (env : Nat → IterOutcome) (i : Nat) : Bool :=
  match env i with
  | IterOutcome.parsed d _ => doneTruthy d
  | _ => false

/-- The `done` message of iteration `i` of the trace (empty if none). -/
def doneMsgAt (env : Nat → IterOutcome) (i : Nat) : String :=
  match env i with
  | IterOutcome.parsed (some s) _ => s
  | _ => ""

/-! ## Theorems -/

/-- Helper for claim C10: the executor always returns a result dictionary. -/
theorem toolExecutor_execute_isOk (body : ToolBody) (tool_name : String)
    (args : RMap) : ∃ r, ToolExecutor.execute body tool_name args = Except.ok r := by
  unfold ToolExecutor.execute
  by_cases h : tool_name ∈ knownTools
  · rw [if_pos h]
    cases body tool_name args with
    | ok r => exact ⟨r, rfl⟩
    | error e => exact ⟨_, rfl⟩
  · rw [if_neg h]
    exact ⟨_, rfl⟩

/-- C10: `ToolExecutor.execute` is total at its public interface: it always
returns a result dictionary and never lets an exception escape; an
unrecognized tool name yields the `Unknown tool` error dictionary; an
exception raised by a dispatched tool body is converted into a
`success=False` dictionary carrying the message and the exception type;
and the module-level `execute_tool` returns an error dictionary instead of
raising when the global executor is uninitialized. -/
theorem tool_executor_total (body : ToolBody) (tool_name : String) (args : RMap) :
    (∃ r, ToolExecutor.execute body tool_name args = Except.ok r) ∧
    (tool_name ∉ knownTools →
      ToolExecutor.execute body tool_name args =
        Except.ok [("success", JVal.bool false),
                   ("error", JVal.str ("Unknown tool: " ++ tool_name))]) ∧
    (tool_name ∈ knownTools → ∀ e, body tool_name args = Except.error e →
      ToolExecutor.execute body tool_name args =
        Except.ok [("success", JVal.bool false), ("tool", JVal.str tool_name),
                   ("error", JVal.str e.msg), ("error_type", JVal.str e.etype)]) ∧
    (∀ initialized, ∃ r, execute_tool initialized body tool_name args = Except.ok r) ∧
    (execute_tool false body tool_name args =
      Except.ok [("success", JVal.bool false),
                 ("error", JVal.str "Executor not initialized")]) := by
  refine ⟨toolExecutor_execute_isOk body tool_name args, ?_, ?_, ?_, rfl⟩
  · intro h
    unfold ToolExecutor.execute
    rw [if_neg h]
  · intro hmem e he
    unfold ToolExecutor.execute
    rw [if_pos hmem, he]
  · intro initialized
    cases initialized with
    | false => exact ⟨_, rfl⟩
    | true =>
        have := toolExecutor_execute_isOk body tool_name args
        simpa [execute_tool] using this

/-- Witness for C10 at concrete inputs: an unknown tool name and a known
tool whose body raises. -/
theorem tool_executor_total_witness :
    ToolExecutor.execute raisingBody "nonexistent_tool" [] =
      Except.ok [("success", JVal.bool false),
                 ("error", JVal.str ("Unknown tool: " ++ "nonexistent_tool"))] ∧
    ToolExecutor.execute raisingBody "read_file" [] =
      Except.ok [("success", JVal.bool false), ("tool", JVal.str "read_file"),
                 ("error", JVal.str "boom"), ("error_type", JVal.str "ValueError")] :=
  ⟨(tool_executor_total raisingBody "nonexistent_tool" []).2.1 (by decide),
   (tool_executor_total raisingBody "read_file" []).2.2.1 (by decide)
     ⟨"boom", "ValueError"⟩ rfl⟩

/-- C1 (code bug): on a tool whose every attempt returns an explicit error
status, `_handle_tool_calls` consumes exactly one `execute_tool` invocation
and returns the tool's error dictionary verbatim — no `attempts` count and
no `suggestion` field — while the retry loop the repository's own
`test_retry_exhaustion` verifies makes `1 + TOOL_RETRY_ATTEMPTS = 3`
attempts and synthesizes the structured failure with both fields. -/
theorem gemini_tool_call_no_retry :
    (handleToolCalls alwaysFailStream 0 ["test_tool"]).2 = 1 ∧
    (handleToolCalls alwaysFailStream 0 ["test_tool"]).1 =
      [("test_tool", alwaysFailResult)] ∧
    rget alwaysFailResult "attempts" = none ∧
    rget alwaysFailResult "suggestion" = none ∧
    rget alwaysFailResult "status" = some (JVal.str "error") ∧
    (testRetryLoop alwaysFailStream "test_tool").2 = 1 + TOOL_RETRY_ATTEMPTS ∧
    rget (testRetryLoop alwaysFailStream "test_tool").1 "attempts" =
      some (JVal.num (1 + TOOL_RETRY_ATTEMPTS)) ∧
    (rget (testRetryLoop alwaysFailStream "test_tool").1 "suggestion").isSome = true ∧
    (1 : Nat) ≠ 1 + TOOL_RETRY_ATTEMPTS := by
  decide

/-- Counterexample for C5: a `speak` call whose text is empty returns
before the `try/finally` block, so a supplied `on_end` callback fires zero
times, not once. -/
theorem speak_onend_counterexample :
    onEndCount "" false false = 0 ∧ onEndCount "" false false ≠ 1 := by
  decide

/-- C5 as amended: for every `speak` call whose text is non-empty after
trimming whitespace, the `finally` block fires the supplied `on_end`
callback exactly once, whether or not synthesis or playback raises. -/
theorem speak_onend_amended (text : String) (synthRaises playRaises : Bool)
    (h : pyStripS text ≠ "") :
    onEndCount text synthRaises playRaises = 1 := by
  unfold onEndCount speakEvents
  rw [if_neg]
  · cases synthRaises <;> cases playRaises <;> rfl
  · rintro (rfl | h2)
    · exact h rfl
    · exact h h2

/-- Witness for C5 as amended: a synthesis failure still fires `on_end`
exactly once. -/
theorem speak_onend_amended_witness : onEndCount "Hello there" true false = 1 :=
  speak_onend_amended "Hello there" true false (by decide)

/-- C8: for each configured wake word, the transcript
`"hey {word}, what time is it"` matches the wake phrase, and the trailing
text after the match — whitespace-stripped, then stripped of leading
punctuation — is `"what time is it"`, which is at least 4 characters and
is therefore delivered to the callback as a pre-supplied command. -/
theorem wake_phrase_extracts_command (w : String) (hw : w ∈ allowedWakeWords) :
    wakeDetect w ("hey " ++ w ++ ", what time is it") =
      { matched := true, command := some "what time is it" } ∧
    4 ≤ ("what time is it").length := by
  have hw' : w = "jarvis" ∨ w = "sarah" := by
    simpa [allowedWakeWords] using hw
  rcases hw' with rfl | rfl
  · exact ⟨by decide, by decide⟩
  · exact ⟨by decide, by decide⟩

/-- Witness for C8 at the wake word `jarvis`. -/
theorem wake_phrase_extracts_command_witness :
    wakeDetect "jarvis" ("hey " ++ "jarvis" ++ ", what time is it") =
      { matched := true, command := some "what time is it" } ∧
    4 ≤ ("what time is it").length :=
  wake_phrase_extracts_command "jarvis" (by decide)

/-- Upper bound on the recording loop: at most one chunk per remaining
iteration is appended. -/
theorem recordLoopAux_le (trace : Nat → Nat) :
    ∀ fuel i sc, recordLoopAux trace fuel i sc ≤ i + fuel := by
  intro fuel
  induction fuel with
  | zero => intro i sc; simp [recordLoopAux]
  | succ f ih =>
      intro i sc
      unfold recordLoopAux
      by_cases h1 : minChunks ≤ i
      · rw [if_pos h1]
        by_cases h2 : trace i < REC_SILENCE_SUM
        · rw [if_pos h2]
          by_cases h3 : sc + 1 > maxSilentChunks
          · rw [if_pos h3]; omega
          · rw [if_neg h3]; have := ih (i + 1) (sc + 1); omega
        · rw [if_neg h2]; have := ih (i + 1) 0; omega
      · rw [if_neg h1]; have := ih (i + 1) sc; omega

/-- Lower bound on the recording loop: a silence break needs the
`silent_chunks` counter to climb past `maxSilentChunks`, which takes at
least `32 - sc` further chunks. -/
theorem recordLoopAux_ge (trace : Nat → Nat) :
    ∀ fuel i sc, min (i + fuel) (i + (32 - sc)) ≤ recordLoopAux trace fuel i sc := by
  have hms : maxSilentChunks = 31 := rfl
  intro fuel
  induction fuel with
  | zero => intro i sc; simp [recordLoopAux]
  | succ f ih =>
      intro i sc
      unfold recordLoopAux
      by_cases h1 : minChunks ≤ i
      · rw [if_pos h1]
        by_cases h2 : trace i < REC_SILENCE_SUM
        · rw [if_pos h2]
          by_cases h3 : sc + 1 > maxSilentChunks
          · rw [if_pos h3]; omega
          · rw [if_neg h3]; have := ih (i + 1) (sc + 1); omega
        · rw [if_neg h2]; have := ih (i + 1) 0; omega
      · rw [if_neg h1]; have := ih (i + 1) sc; omega

/-- C9: for every energy trace, the utterance buffer emitted by
`_record_and_transcribe_command` holds between `MIN_AUDIO_LENGTH = 0.5`
and `MAX_DURATION = 10` seconds of audio: silence can only end the
recording after the minimum capture duration, and the chunk budget stops
it unconditionally at the maximum duration. -/
theorem utterance_duration_bounds (trace : Nat → Nat) :
    (1 : ℚ) / 2 ≤ recordedSeconds trace ∧ recordedSeconds trace ≤ 10 := by
  have hmax : maxChunks = 156 := rfl
  have h1 : recordedChunks trace ≤ 156 := by
    have := recordLoopAux_le trace maxChunks 0 0
    unfold recordedChunks
    omega
  have h2 : 32 ≤ recordedChunks trace := by
    have := recordLoopAux_ge trace maxChunks 0 0
    unfold recordedChunks
    omega
  have hq1 : (32 : ℚ) ≤ (recordedChunks trace : ℚ) := by exact_mod_cast h2
  have hq2 : ((recordedChunks trace : ℚ)) ≤ 156 := by exact_mod_cast h1
  have hc : ((REC_CHUNK : Nat) : ℚ) = 1024 := by norm_num [REC_CHUNK]
  have hr : ((REC_RATE : Nat) : ℚ) = 16000 := by norm_num [REC_RATE]
  have hrpos : (0 : ℚ) < ((REC_RATE : Nat) : ℚ) := by rw [hr]; norm_num
  constructor
  · unfold recordedSeconds
    rw [le_div_iff hrpos, hc, hr]
    nlinarith
  · unfold recordedSeconds
    rw [div_le_iff hrpos, hc, hr]
    nlinarith

/-- Counterexample for C6: a response whose `done` field holds the empty
string is non-null, yet `instructions.get('done')` is falsy on it, so the
loop does not terminate successfully and instead exhausts its iterations
with a `partial` status. -/
theorem autopilot_empty_done_counterexample :
    doneEmptyEnv 0 = IterOutcome.parsed (some "") [] ∧
    (executeAutopilot doneEmptyEnv 1 true).1.status = "partial" ∧
    (executeAutopilot doneEmptyEnv 1 true).1.status ≠ "success" := by
  decide

/-- Helper for claim C6: behaviour of the iteration loop from an arbitrary
iteration index, for traces on which no iteration errors out. -/
theorem autopilotAux_spec (env : Nat → IterOutcome) (hx : Bool) (maxIter : Nat) :
    ∀ fuel n acc,
      (∀ i, n ≤ i → i < n + fuel → benignIter (env i) = true) →
      ((∀ i, n ≤ i → i < n + fuel → truthyDoneAt env i = false) →
        (autopilotAux env hx maxIter fuel n acc).1 =
          { status := "partial",
            message := "Autopilot reached maximum iterations (" ++ toString maxIter ++
                       "). Task may be incomplete.",
            steps_taken := some maxIter }) ∧
      (∀ i, n ≤ i → i < n + fuel → truthyDoneAt env i = true →
        (∀ j, n ≤ j → j < i → truthyDoneAt env j = false) →
        (autopilotAux env hx maxIter fuel n acc).1 =
          { status := "success", message := doneMsgAt env i,
            steps_taken := some (i + 1) }) := by
  intro fuel
  induction fuel with
  | zero =>
      intro n acc _hben
      refine ⟨fun _ => rfl, fun i hi1 hi2 _ _ => absurd hi2 (by omega)⟩
  | succ f ih =>
      intro n acc hben
      have hbn : benignIter (env n) = true := hben n le_rfl (by omega)
      cases hcase : env n with
      | captureFail => rw [hcase] at hbn; simp [benignIter] at hbn
      | nonDict em => rw [hcase] at hbn; simp [benignIter] at hbn
      | badJson =>
          have hben' : ∀ i, n + 1 ≤ i → i < (n + 1) + f → benignIter (env i) = true :=
            fun i hi1 hi2 => hben i (by omega) (by omega)
          have hrec := ih (n + 1) acc hben'
          have hstep : autopilotAux env hx maxIter (f + 1) n acc =
              autopilotAux env hx maxIter f (n + 1) acc := by
            conv_lhs => rw [autopilotAux.eq_def]
            dsimp only
            rw [hcase]
          rw [hstep]
          constructor
          · intro hnone
            exact hrec.1 (fun i hi1 hi2 => hnone i (by omega) (by omega))
          · intro i hi1 hi2 hdone hmin
            have hni : n ≠ i := by
              intro h
              rw [← h] at hdone
              simp [truthyDoneAt, hcase] at hdone
            exact hrec.2 i (by omega) (by omega) hdone
              (fun j hj1 hj2 => hmin j (by omega) hj2)
      | parsed d steps =>
          by_cases hd : doneTruthy d = true
          · have hstep : autopilotAux env hx maxIter (f + 1) n acc =
                ({ status := "success", message := d.getD "",
                   steps_taken := some (n + 1) }, acc) := by
              conv_lhs => rw [autopilotAux.eq_def]
              dsimp only
              rw [hcase]
              simp [hd]
            constructor
            · intro hnone
              have := hnone n le_rfl (by omega)
              simp [truthyDoneAt, hcase, hd] at this
            · intro i hi1 hi2 _hdone hmin
              have hin : i = n := by
                by_contra hne
                have := hmin n le_rfl (by omega)
                simp [truthyDoneAt, hcase, hd] at this
              subst hin
              have hmsg : doneMsgAt env i = d.getD "" := by
                cases d with
                | none => simp [doneTruthy] at hd
                | some s => simp [doneMsgAt, hcase]
              rw [hstep, hmsg]
          · have hdn : truthyDoneAt env n = false := by
              simp only [truthyDoneAt, hcase]
              simpa using hd
            have hben' : ∀ i, n + 1 ≤ i → i < (n + 1) + f → benignIter (env i) = true :=
              fun i hi1 hi2 => hben i (by omega) (by omega)
            have hstep : ∃ acc', autopilotAux env hx maxIter (f + 1) n acc =
                autopilotAux env hx maxIter f (n + 1) acc' := by
              by_cases hse : steps.isEmpty
              · refine ⟨acc, ?_⟩
                conv_lhs => rw [autopilotAux.eq_def]
                dsimp only
                rw [hcase]
                simp [hse, hd]
              · refine ⟨acc ++ stepEffects hx steps, ?_⟩
                conv_lhs => rw [autopilotAux.eq_def]
                dsimp only
                rw [hcase]
                simp [hse, hd]
            obtain ⟨acc', hstep⟩ := hstep
            rw [hstep]
            have hrec := ih (n + 1) acc' hben'
            constructor
            · intro hnone
              exact hrec.1 (fun i hi1 hi2 => hnone i (by omega) (by omega))
            · intro i hi1 hi2 hdone hmin
              have hni : n ≠ i := by
                intro h
                rw [← h, hdn] at hdone
                exact absurd hdone (by simp)
              exact hrec.2 i (by omega) (by omega) hdone
                (fun j hj1 hj2 => hmin j (by omega) hj2)

/-- C6 as amended: on runs in which every consulted screen capture
succeeds and every model response is a JSON object or a JSON-decode
failure, the loop returns `status="success"` with the `done` message and
`steps_taken = i + 1` as soon as iteration `i` is the first whose `done`
field is truthy (non-null and non-empty), and returns `status="partial"`
after exactly `maxIterations` cycles when no iteration has a truthy
`done`. -/
theorem autopilot_loop_amended (env : Nat → IterOutcome) (maxIter : Nat) (hx : Bool)
    (hben : ∀ i, i < maxIter → benignIter (env i) = true) :
    ((∀ i, i < maxIter → truthyDoneAt env i = false) →
      (executeAutopilot env maxIter hx).1 =
        { status := "partial",
          message := "Autopilot reached maximum iterations (" ++ toString maxIter ++
                     "). Task may be incomplete.",
          steps_taken := some maxIter }) ∧
    (∀ i, i < maxIter → truthyDoneAt env i = true →
      (∀ j, j < i → truthyDoneAt env j = false) →
      (executeAutopilot env maxIter hx).1 =
        { status := "success", message := doneMsgAt env i,
          steps_taken := some (i + 1) }) := by
  have h := autopilotAux_spec env hx maxIter maxIter 0 []
    (fun i _ hi => hben i (by omega))
  exact ⟨fun hn => h.1 (fun i _ hi => hn i (by omega)),
         fun i hi ht hm => h.2 i (by omega) (by omega) ht (fun j _ hj => hm j hj)⟩

/-- Witness for C6 as amended: a trace whose first response carries a
truthy `done` terminates successfully after one iteration. -/
theorem autopilot_loop_amended_witness :
    (executeAutopilot doneOkEnv 2 true).1 =
      { status := "success", message := "done!", steps_taken := some 1 } :=
  (autopilot_loop_amended doneOkEnv 2 true (fun _ _ => rfl)).2 0 (by omega) rfl
    (fun j hj => absurd hj (Nat.not_lt_zero j))

/-- Helper for claim C7: no step effect is ever a dispatch of the
autopilot tool itself. -/
theorem stepEffect_ne_recursive (hx : Bool) (s : AutoStep) :
    stepEffect hx s ≠ AutoEffect.toolExec "execute_autopilot" := by
  cases s with
  | toolCall name params =>
      by_cases h : name = "execute_autopilot"
      · simp [stepEffect, h]
      · cases hx with
        | false => simp [stepEffect, h]
        | true => simp [stepEffect, h]
  | autoCmd fn params => simp [stepEffect]
  | invalid => simp [stepEffect]

/-- Helper for claim C7: the iteration loop never accumulates a recursive
autopilot dispatch. -/
theorem autopilotAux_no_recursive (env : Nat → IterOutcome) (hx : Bool)
    (maxIter : Nat) :
    ∀ fuel n acc, AutoEffect.toolExec "execute_autopilot" ∉ acc →
      AutoEffect.toolExec "execute_autopilot" ∉ (autopilotAux env hx maxIter fuel n acc).2 := by
  intro fuel
  induction fuel with
  | zero => intro n acc h; simpa [autopilotAux] using h
  | succ f ih =>
      intro n acc hacc
      unfold autopilotAux
      cases hcase : env n with
      | captureFail => simpa using hacc
      | nonDict em => simpa using hacc
      | badJson => exact ih (n + 1) acc hacc
      | parsed d steps =>
          by_cases hd : doneTruthy d = true
          · simpa [hd] using hacc
          · by_cases hse : steps.isEmpty
            · simpa [hd, hse] using ih (n + 1) acc hacc
            · have hsteps : AutoEffect.toolExec "execute_autopilot" ∉
                  acc ++ stepEffects hx steps := by
                rw [List.mem_append]
                rintro (h | h)
                · exact hacc h
                · rw [stepEffects, List.mem_map] at h
                  obtain ⟨s, _, hs⟩ := h
                  exact stepEffect_ne_recursive hx s hs
              simpa [hd, hse] using ih (n + 1) (acc ++ stepEffects hx steps) hsteps

/-- C7: a step requesting the autopilot tool itself is rejected without
raising — it maps to a skip while every remaining step of the iteration
still produces its effect — and consequently the autopilot loop never
dispatches the autopilot tool, so it never invokes itself recursively. -/
theorem autopilot_never_recurses (hx : Bool) (params : RMap)
    (pre post : List AutoStep) (env : Nat → IterOutcome) (maxIter : Nat) :
    stepEffects hx (pre ++ AutoStep.toolCall "execute_autopilot" params :: post) =
      stepEffects hx pre ++ AutoEffect.skippedRecursive :: stepEffects hx post ∧
    AutoEffect.toolExec "execute_autopilot" ∉ (executeAutopilot env maxIter hx).2 := by
  constructor
  · simp [stepEffects, stepEffect]
  · exact autopilotAux_no_recursive env hx maxIter maxIter 0 [] (by simp)

/-- Helper for claims C2 and C3: sizes produced by the tool loop on
success — at most two message-list entries and one round trip per
remaining iteration. -/
theorem toolLoop_ok_bounds (env : Env) :
    ∀ f cs r an tn rt st, toolLoop env f cs r an tn rt = Except.ok st →
      st.contents.length ≤ cs.length + 2 * f ∧ st.trips ≤ rt + f := by
  intro f
  induction f with
  | zero =>
      intro cs r an tn rt st h
      simp only [toolLoop] at h
      injection h with h
      subst h
      simp
  | succ f ih =>
      intro cs r an tn rt st h
      simp only [toolLoop] at h
      split at h
      · injection h with h
        subst h
        constructor <;> simp
      · split at h
        · injection h with h
          subst h
          constructor <;> simp
        · split at h
          · exact absurd h (by simp)
          · have := ih _ _ _ _ _ _ h
            simp only [List.length_append, List.length_cons, List.length_nil] at this ⊢
            omega

/-- Helper for claim C3: a tool-loop abort still has performed at most one
round trip per consumed iteration. -/
theorem toolLoop_error_bound (env : Env) :
    ∀ f cs r an tn rt rt', toolLoop env f cs r an tn rt = Except.error rt' →
      rt' ≤ rt + f := by
  intro f
  induction f with
  | zero =>
      intro cs r an tn rt rt' h
      simp only [toolLoop] at h
      simp at h
  | succ f ih =>
      intro cs r an tn rt rt' h
      simp only [toolLoop] at h
      split at h
      · simp at h
      · split at h
        · simp at h
        · split at h
          · injection h with h
            omega
          · have := ih _ _ _ _ _ _ h
            omega

/-- Helper for claim C4: the response, counters and round-trip count
produced by the tool loop do not depend on the message list it threads
(the list is only appended to, never read). -/
theorem toolLoop_resp_indep (env : Env) :
    ∀ f cs₁ cs₂ r an tn rt,
      (toolLoop env f cs₁ r an tn rt).map (fun st => (st.resp, st.trips)) =
      (toolLoop env f cs₂ r an tn rt).map (fun st => (st.resp, st.trips)) := by
  intro f
  induction f with
  | zero => intro cs₁ cs₂ r an tn rt; rfl
  | succ f ih =>
      intro cs₁ cs₂ r an tn rt
      simp only [toolLoop]
      by_cases hfc : (extractCalls r).isEmpty = true
      · rw [if_pos hfc, if_pos hfc]; rfl
      · simp only [hfc, if_false, Bool.false_eq_true]
        cases hc : r.candidates with
        | nil => rfl
        | cons mc rest =>
            cases hcall : callWithRetry3 env.api an with
            | error e => rfl
            | ok p =>
                obtain ⟨r', an'⟩ := p
                exact ih _ _ r' an' _ (rt + 1)

/-- Helper for claim C2: the truncated window never exceeds 20 entries. -/
theorem truncateTurns_length (c : List GContent) : (truncateTurns c).length ≤ 20 := by
  unfold truncateTurns
  split
  · simp only [List.length_drop]
    omega
  · omega

/-- Helper for claim C2: truncation evicts entries from the front only —
the kept window is a suffix of the untruncated list. -/
theorem truncateTurns_suffix (c : List GContent) : truncateTurns c <:+ c := by
  unfold truncateTurns
  split
  · exact ⟨c.take (c.length - 20), List.take_append_drop _ c⟩
  · exact ⟨[], rfl⟩

/-- Helper for claim C2: the history produced by the post-loop code is
empty, the incoming history, the truncated window, or (only when the
incoming history was empty) the raw message list. -/
theorem afterLoop_history_cases (env : Env) (uh : Bool) (hist : List GContent)
    (st : LoopSt) :
    (afterLoop env uh hist st).history = [] ∨
    (afterLoop env uh hist st).history = hist ∨
    (afterLoop env uh hist st).history =
      truncateTurns (st.contents ++ [st.resp.candidates.headD default]) ∨
    (hist = [] ∧ (afterLoop env uh hist st).history = st.contents) := by
  simp only [afterLoop]
  repeat' split
  all_goals simp_all [List.isEmpty_iff]

/-- Helper for claim C3: the reported round-trip count is exactly the tool
loop's count, on every post-loop path. -/
theorem afterLoop_trips (env : Env) (uh : Bool) (hist : List GContent)
    (st : LoopSt) : (afterLoop env uh hist st).toolRoundTrips = st.trips := by
  simp only [afterLoop]
  repeat' split
  all_goals rfl

/-- Helper for claim C4: the continuation decision in closed form — the
post-turn code re-enters listening exactly when a speakable response was
produced, its speech call did not raise, and the sanitized text ends with
a question mark. -/
theorem afterLoop_relisten_eq (env : Env) (uh : Bool) (hist : List GContent)
    (st : LoopSt) :
    (afterLoop env uh hist st).relisten =
      (decide (sanitizeText st.resp.text ≠ "" ∧ (sanitizeText st.resp.text).length > 5) &&
       (!(env.speakFails 0) && pyEndsWith (sanitizeText st.resp.text) "?")) := by
  simp only [afterLoop]
  repeat' split
  all_goals simp_all

/-- Helper for claim C4: the continuation decision in terms of the
observable speech outcome of the same turn. -/
theorem afterLoop_relisten_iff (env : Env) (uh : Bool) (hist : List GContent)
    (st : LoopSt) :
    ((afterLoop env uh hist st).relisten = true ↔
      ∃ t, (afterLoop env uh hist st).spokenText = some t ∧
           (afterLoop env uh hist st).speechOk = true ∧
           pyEndsWith t "?" = true) := by
  simp only [afterLoop]
  repeat' split
  all_goals simp_all

/-- Helper for claim C4: when the turn does not re-enter listening, the
idle notification fires exactly when the turn was started without history
use, and no path clears the stored history. -/
theorem afterLoop_notlisten (env : Env) (uh : Bool) (hist : List GContent)
    (st : LoopSt) (h : (afterLoop env uh hist st).relisten = false) :
    (afterLoop env uh hist st).wentIdle = !uh ∧
    (afterLoop env uh hist st).clearedHistory = false := by
  revert h
  simp only [afterLoop]
  repeat' split
  all_goals simp_all

/-- Helper for claim C2: one interaction-handler call keeps the stored
history within the 20-entry window. -/
theorem processInteraction_history_le (env : Env) (ut : String) (uh : Bool)
    (hist : List GContent) (hh : hist.length ≤ 20) :
    (processInteraction env ut uh hist).history.length ≤ 20 := by
  simp only [processInteraction]
  split
  · exact hh
  · split
    · exact hh
    · rename_i st hl
      rcases afterLoop_history_cases env uh hist st with h | h | h | ⟨h1, h2⟩
      · simp [h]
      · rw [h]; exact hh
      · rw [h]; exact truncateTurns_length _
      · rw [h2]
        have hb := (toolLoop_ok_bounds env 5 _ _ _ 0 0 st hl).1
        subst h1
        simp [buildContents] at hb
        omega

/-- C2: after every completed run of the session controller — any sequence
of interaction-handler calls, with or without history use, starting from
the empty history — the stored conversation history holds at most
`MAX_CONVERSATION_TURNS` entries; and the truncation step keeps at most
that many entries, evicting from the front (the kept window is a suffix
of the appended list). -/
theorem conversation_history_bounded :
    (∀ calls : List (Env × String × Bool),
      (runTurns calls).length ≤ MAX_CONVERSATION_TURNS) ∧
    (∀ c : List GContent, (truncateTurns c).length ≤ MAX_CONVERSATION_TURNS ∧
      truncateTurns c <:+ c) := by
  constructor
  · have key : ∀ (cs : List (Env × String × Bool)) (h : List GContent),
        h.length ≤ 20 → (runTurnsFrom h cs).length ≤ 20 := by
      intro cs
      induction cs with
      | nil => intro h hh; exact hh
      | cons c rest ih =>
          intro h hh
          obtain ⟨env, t, u⟩ := c
          simp only [runTurnsFrom]
          exact ih _ (processInteraction_history_le env t u h hh)
    intro calls
    exact key calls [] (by simp)
  · intro c
    exact ⟨truncateTurns_length c, truncateTurns_suffix c⟩

/-- C3: every interaction performs at most `MAX_TOOL_ITERATIONS` tool
round trips, whatever the model, the tools and the session state do — in
particular the loop terminates even against a model stub that requests a
function call on every response, and against that stub it performs exactly
`MAX_TOOL_ITERATIONS` round trips. -/
theorem tool_iterations_bounded :
    (∀ (env : Env) (ut : String) (uh : Bool) (hist : List GContent),
      (processInteraction env ut uh hist).toolRoundTrips ≤ MAX_TOOL_ITERATIONS) ∧
    (processInteraction alwaysCallEnv "hello" false []).toolRoundTrips =
      MAX_TOOL_ITERATIONS := by
  constructor
  · intro env ut uh hist
    simp only [processInteraction]
    split
    · exact Nat.zero_le _
    · split
      · rename_i rt hl
        have := toolLoop_error_bound env 5 _ _ _ 0 0 rt hl
        dsimp only
        unfold MAX_TOOL_ITERATIONS
        omega
      · rename_i st hl
        rw [afterLoop_trips]
        have := (toolLoop_ok_bounds env 5 _ _ _ 0 0 st hl).2
        unfold MAX_TOOL_ITERATIONS
        omega
  · rfl

/-- Counterexample for C4: a turn with non-empty stored history whose
spoken response does not end in a question mark.  The claim requires the
session to re-enter listening (condition (b): non-empty history) or else
to transition to idle and clear the history; the code does neither — it
does not re-enter listening, does not go idle (the turn used history),
and leaves the history uncleared. -/
theorem continuation_policy_counterexample :
    someHistory ≠ [] ∧
    (processInteraction declarativeEnv "finish it" true someHistory).spokenText =
      some "All done now." ∧
    (processInteraction declarativeEnv "finish it" true someHistory).speechOk = true ∧
    (processInteraction declarativeEnv "finish it" true someHistory).relisten = false ∧
    (processInteraction declarativeEnv "finish it" true someHistory).wentIdle = false ∧
    (processInteraction declarativeEnv "finish it" true someHistory).clearedHistory = false := by
  refine ⟨by decide, rfl, rfl, rfl, rfl, rfl⟩

/-- C4 as amended: after a turn finishes speaking, the session re-enters
listening if and only if the response was actually spoken, the speech call
completed without raising, and the sanitized response text ends with a
question mark.  The decision is independent of the stored history and of
the history flag; when the session does not re-enter listening it fires
the idle notification exactly when the turn was started without history
use, and the history is not cleared on that path. -/
theorem continuation_policy_amended (env : Env) (ut : String) (uh₁ uh₂ : Bool)
    (h₁ h₂ : List GContent) :
    ((processInteraction env ut uh₁ h₁).relisten = true ↔
      ∃ t, (processInteraction env ut uh₁ h₁).spokenText = some t ∧
           (processInteraction env ut uh₁ h₁).speechOk = true ∧
           pyEndsWith t "?" = true) ∧
    (processInteraction env ut uh₁ h₁).relisten =
      (processInteraction env ut uh₂ h₂).relisten ∧
    ((processInteraction env ut uh₁ h₁).relisten = false →
      (processInteraction env ut uh₁ h₁).wentIdle = !uh₁ ∧
      (processInteraction env ut uh₁ h₁).clearedHistory = false) := by
  refine ⟨?_, ?_, ?_⟩
  · simp only [processInteraction]
    split
    · simp
    · split
      · simp
      · rename_i st hl
        exact afterLoop_relisten_iff env uh₁ h₁ st
  · simp only [processInteraction]
    split
    · rfl
    · rename_i r0an0 r0 an0 h0
      have hind := toolLoop_resp_indep env 5 (buildContents ut env.screenshotOk uh₁ h₁)
        (buildContents ut env.screenshotOk uh₂ h₂) r0 an0 0 0
      split
      · rename_i e1 hl1
        split
        · rfl
        · rename_i st2 hl2
          rw [hl1, hl2] at hind
          simp [Except.map] at hind
      · rename_i st1 hl1
        split
        · rename_i e2 hl2
          rw [hl1, hl2] at hind
          simp [Except.map] at hind
        · rename_i st2 hl2
          rw [hl1, hl2] at hind
          simp only [Except.map, Except.ok.injEq, Prod.mk.injEq] at hind
          rw [afterLoop_relisten_eq, afterLoop_relisten_eq, hind.1]
  · simp only [processInteraction]
    split
    · intro _
      exact ⟨rfl, rfl⟩
    · split
      · intro _
        exact ⟨rfl, rfl⟩
      · rename_i st hl
        exact afterLoop_notlisten env uh₁ h₁ st

/-- Witness for C4 as amended at a concrete non-continuing turn started
without history use: it fires the idle notification and does not clear
the history. -/
theorem continuation_policy_amended_witness :
    (processInteraction declarativeEnv "finish it" false []).wentIdle = !false ∧
    (processInteraction declarativeEnv "finish it" false []).clearedHistory = false :=
  (continuation_policy_amended declarativeEnv "finish it" false false [] []).2.2 rfl
